import Mathlib

/-!
Verification development for the email distribution core of the
AnnouncerPlugin repository (announcer/distributors/mail.py).

The Python module is shallowly embedded below.  External collaborators
(formatter plugins, address resolvers, the subscription preference store,
the compiled allow/local regular expressions, the GnuPG crypto engine,
clock/randomness used for the Message-ID, and the decorator chain) are
modelled as oracle functions gathered in an `Env` record; the component
configuration options are gathered in a `Config` record.  Python strings
are Lean strings with the Python truthiness convention that the empty
string is falsy; Python dicts are insertion-ordered association lists;
Python sets of recipient tuples are duplicate-free lists.

The module mixes Python 2 and Python 3 idioms (`iteritems` on line 412 is
Python 2 only) and the operative semantics used here is Python 2, which
matters for the comparison `pubkey_ids > 0` on line 278: in Python 2 a
list compares greater than any integer, so that test is true even for an
empty list.
-/

namespace AnnouncerMail

/-- A recipient tuple (name, authenticated, address) as iterated by
`distribute`; empty strings model falsy name/address values. -/
abbrev Rcpt := String × Bool × String

/-- An announcement event; `realm` is the event realm used for format
lookup, `id` identifies the event payload handed to formatters. -/
structure Event where
  realm : String
  id : String
deriving DecidableEq

/-- A formatter plugin (IAnnouncementFormatter).  `name` models Python
object identity of the plugin instance; `alternative_style_for` returns
the empty string for a falsy (None or empty) result. -/
structure Formatter where
  name : String
  styles : String → String → List String
  format : String → String → String → Event → String
  alternative_style_for : String → String → String → String

/-- An insertion-ordered dictionary, modelling a Python dict. -/
abbrev Dict (α : Type) := List (String × α)

/-- Python dict assignment `d[k] = v`: updates the first binding of `k`
in place, otherwise appends a new binding at the end. -/
def dictSet {α : Type} : Dict α → String → α → Dict α
  | [], k, v => [(k, v)]
  | (k', v') :: rest, k, v =>
    if k' = k then (k, v) :: rest else (k', v') :: dictSet rest k v

/-- Python dict lookup `d.get(k)`. -/
def dictGet {α : Type} : Dict α → String → Option α
  | [], _ => none
  | (k', v) :: rest, k => if k' = k then some v else dictGet rest k

/-- Python `set.add`: appends the element unless already present. -/
def setAdd (s : List Rcpt) (x : Rcpt) : List Rcpt :=
  if x ∈ s then s else s ++ [x]

/-- Python `d.setdefault(k, set()).add(x)` on a dict of sets. -/
def dictAddTo : Dict (List Rcpt) → String → Rcpt → Dict (List Rcpt)
  | [], k, x => [(k, setAdd [] x)]
  | (k', s) :: rest, k, x =>
    if k' = k then (k', setAdd s x) :: rest else (k', s) :: dictAddTo rest k x

/-- Membership of a recipient tuple in any of the per-format sets of a
grouping dict. -/
def inGroup (d : Dict (List Rcpt)) (x : Rcpt) : Bool :=
  d.any (fun p => decide (x ∈ p.2))

/-- First truthy string of a list, else the empty string; models Python
loops of the shape `for ...: v = f(...); if v: break` followed by a
truthiness test on `v`. -/
def firstTruthy : List String → String
  | [] => ""
  | x :: xs => if x ≠ "" then x else firstTruthy xs

/-- The component configuration options of EmailDistributor that the
embedded code paths read. -/
structure Config where
  enabled : Bool
  email_from : String
  from_name : String
  project_name : String
  reply_to : String
  mime_encoding : String
  use_public_cc : Bool
  email_to : String
  use_threaded_delivery : Bool
  default_email_format : String
  crypto : String
  private_key : String

/-- Effects performed by `_do_send`, recorded in order. -/
inductive Effect where
  | rendered (style : String)
  | cryptoApplied (op : String)
  | decorated
  | sentNow (fromAddr : String) (rcpts : List String)
  | enqueuedMsg (fromAddr : String) (rcpts : List String)
deriving DecidableEq

/-- The assembled MIME message: headers, preamble, the optional
alternative part attached first and the primary part attached last,
each part being (mime subtype, content). -/
structure MailMessage where
  headers : Dict String
  preamble : String
  alt_part : Option (String × String)
  main_part : String × String
deriving DecidableEq

/-- Oracles for every external collaborator the embedded code calls:
formatter plugins, the resolver chain, the subscription preference
store (`none` models an absent subscription row), the compiled
allow/local regexes as boolean match functions, the CryptoTxt engine,
the Message-ID/Date sources, and the registered decorator chain. -/
structure Env where
  formatters : List Formatter
  resolvers : List (String → Bool → String)
  prefFormat : String → String → Bool → Option String
  allowMatch : String → Bool
  localMatch : String → Bool
  getPubkeyIds : String → List Nat
  sign : String → String → String
  encrypt : String → List Nat → String
  sign_encrypt : String → List Nat → String → String
  message_id : String → String
  date : String
  hasDecorators : Bool
  runDecorators : Event → MailMessage → MailMessage

/-- Python 2 semantics of the comparison `pubkey_ids > 0` at mail.py
line 278: `pubkey_ids` is the list returned by `get_pubkey_ids`, and in
Python 2 a mixed-type comparison of a list with an integer orders the
type names, so any list, including an empty one, is greater than 0. -/
def pyListGtZero (_xs : List Nat) : Bool := true

/-- The crypto mode test `self.crypto in ['encrypt', 'sign,encrypt']`
at mail.py line 274. -/
def cryptoActive (cfg : Config) : Bool :=
  cfg.crypto == "encrypt" || cfg.crypto == "sign,encrypt"

/-- EmailDistributor._get_preferred_format: a stored subscription row
wins, otherwise the configured default format (mail.py 323-336). -/
def get_preferred_format (cfg : Config) (env : Env) (realm sid : String)
    (authed : Bool) : String :=
  match env.prefFormat realm sid authed with
  | some chosen => chosen
  | none => cfg.default_email_format

/-- Address resolution loop of mail.py 256-261: call each resolver in
order, stop at the first truthy address, else end with a falsy value. -/
def resolve_address : List (String → Bool → String) → String → Bool → String
  | [], _, _ => ""
  | res :: rest, name, authed =>
    let address := res name authed
    if address ≠ "" then address else resolve_address rest name authed

/-- The resolved address of a recipient: resolvers are consulted only
when a name is present and the address is falsy (mail.py 255-261). -/
def resolved_address (env : Env) (r : Rcpt) : String :=
  if r.1 ≠ "" ∧ r.2.2 = "" then resolve_address env.resolvers r.1 r.2.1
  else r.2.2

/-- EmailDistributor.formats (mail.py 196-208): every formatter is asked
for its styles and each style is assigned into the catalog dict in
registration order, so a later assignment overwrites an earlier one. -/
def formats (formatters : List Formatter) (transport realm : String) :
    Dict Formatter :=
  formatters.foldl
    (fun d f => (f.styles transport realm).foldl
      (fun d' style => dictSet d' style f) d) []

/-- The format chosen for one recipient (mail.py 235-250): the preferred
format (Python `name and preferred or default`), falling back to the
first truthy alternative style offered by any catalog formatter when the
preferred format is not in the catalog. -/
def chosen_format (cfg : Config) (env : Env) (transport : String)
    (ev : Event) (fmts : Dict Formatter) (r : Rcpt) : String :=
  let old_fmt :=
    if r.1 ≠ "" then
      let p := get_preferred_format cfg env ev.realm r.1 r.2.1
      if p ≠ "" then p else cfg.default_email_format
    else cfg.default_email_format
  if (dictGet fmts old_fmt).isSome then old_fmt
  else firstTruthy ((fmts.map Prod.snd).map
    (fun f => f.alternative_style_for transport ev.realm old_fmt))

/-- The decision taken by the per-recipient classification body of
`distribute` for one recipient. -/
inductive Classification where
  | skip
  | toPlain (fmt : String) (t : Rcpt)
  | toEncrypt (fmt : String) (t : Rcpt) (ids : List Nat)
deriving DecidableEq

/-- The per-recipient classification of mail.py 234-303: find a format
(else skip), resolve an address (else skip), apply the allow regex
(else skip); with an active crypto mode and no local-regex match the
recipient goes to the encrypt group when `pubkey_ids > 0` (always true
under Python 2 list comparison), otherwise to the plain group. -/
def classifyOne (cfg : Config) (env : Env) (transport : String) (ev : Event)
    (fmts : Dict Formatter) (r : Rcpt) : Classification :=
  let fmt := chosen_format cfg env transport ev fmts r
  if fmt = "" then .skip
  else
    let address := resolved_address env r
    if address = "" then .skip
    else if env.allowMatch address then
      if cryptoActive cfg && !(env.localMatch address) then
        let pubkey_ids := env.getPubkeyIds address
        if pyListGtZero pubkey_ids then
          .toEncrypt fmt (r.1, r.2.1, address) pubkey_ids
        else .skip
      else .toPlain fmt (r.1, r.2.1, address)
    else .skip

/-- The mutable classification state of one `distribute` call:
`msgdict` and `msgdict_encrypt` group recipient tuples by format and
`msg_pubkey_ids` accumulates public key ids (mail.py 223-225). -/
structure ClassState where
  msgdict : Dict (List Rcpt)
  msgdict_encrypt : Dict (List Rcpt)
  msg_pubkey_ids : List Nat
deriving DecidableEq

/-- Application of one classification decision to the state: the plain
decision adds to `msgdict`, the encrypt decision adds to
`msgdict_encrypt` and extends the accumulated key-id list (mail.py
279-291). -/
def applyClassification (st : ClassState) : Classification → ClassState
  | .skip => st
  | .toPlain fmt t => { st with msgdict := dictAddTo st.msgdict fmt t }
  | .toEncrypt fmt t ids =>
    { st with msgdict_encrypt := dictAddTo st.msgdict_encrypt fmt t,
              msg_pubkey_ids := st.msg_pubkey_ids ++ ids }

/-- One iteration of the recipient loop of `distribute`. -/
def classifyStep (cfg : Config) (env : Env) (transport : String) (ev : Event)
    (fmts : Dict Formatter) (st : ClassState) (r : Rcpt) : ClassState :=
  applyClassification st (classifyOne cfg env transport ev fmts r)

/-- The whole recipient loop of `distribute` (mail.py 234-303). -/
def classify (cfg : Config) (env : Env) (transport : String) (ev : Event)
    (fmts : Dict Formatter) (recipients : List Rcpt) : ClassState :=
  recipients.foldl (classifyStep cfg env transport ev fmts) ⟨[], [], []⟩

/-- Byte-level ASCII representability: `output.encode('ascii')` on a
Python 2 byte string succeeds exactly when every character code is below
128, and raises the UnicodeDecodeError caught at mail.py 448. -/
def pyIsAscii (s : String) : Bool := s.data.all (fun c => c.toNat < 128)

/-- Python `str.lower()` restricted to the ASCII option values used by
the `mime_encoding` setting. -/
def lowerStr (s : String) : String := String.mk (s.data.map Char.toLower)

/-- Whether `self._charset.body_encoding` is falsy: `_init_pref_encoding`
(mail.py 338-361) sets it to None exactly for the 'none' preference and
to a truthy constant for base64 and quoted-printable. -/
def bodyEncodingNone (cfg : Config) : Bool := lowerStr cfg.mime_encoding == "none"

/-- Whether the character list `needle` occurs at the start of `hay`. -/
def listStartsWith : List Char → List Char → Bool
  | _, [] => true
  | [], _ :: _ => false
  | a :: as, b :: bs => a == b && listStartsWith as bs

/-- Whether the character list `needle` occurs anywhere in `hay`. -/
def listContainsSeq : List Char → List Char → Bool
  | [], needle => needle.isEmpty
  | a :: rest, needle =>
    listStartsWith (a :: rest) needle || listContainsSeq rest needle

/-- Python substring test `needle in hay`. -/
def pyIn (needle hay : String) : Bool := listContainsSeq hay.data needle.data

/-- The MIME subtype choice `'html' in style and 'html' or 'plain'`
(mail.py 457 and 466). -/
def mime_class (style : String) : String :=
  if pyIn "html" style then "html" else "plain"

/-- Python `', '.join(l)`. -/
def joinComma : List String → String
  | [] => ""
  | [x] => x
  | x :: y :: rest => x ++ ", " ++ joinComma (y :: rest)

/-- email.utils.formataddr for a display name without special
characters: `name <addr>`, or the bare address when the name is falsy. -/
def formataddr (name addr : String) : String :=
  if name ≠ "" then name ++ " <" ++ addr ++ ">" else addr

/-- The From header built at mail.py 382-385: the configured sender name
or the project name, combined with the configured sender address. -/
def from_header (cfg : Config) : String :=
  formataddr (if cfg.from_name ≠ "" then cfg.from_name else cfg.project_name)
    cfg.email_from

/-- The headers written before the recipient-visibility policy (mail.py
386-390): Message-ID, Date, From, Reply-To. -/
def base_headers (cfg : Config) (env : Env) (ev : Event) : Dict String :=
  dictSet (dictSet (dictSet (dictSet [] "Message-ID" (env.message_id ev.realm))
    "Date" env.date) "From" (from_header cfg)) "Reply-To" cfg.reply_to

/-- The class attribute `to_default` (mail.py 108), also the default of
the `email_to` option. -/
def to_default : String := "undisclosed-recipients: ;"

/-- The recipient-visibility policy of mail.py 394-403: with public CC
all addresses go into a Cc header; otherwise, when the `email_to` option
equals its default the To header is the localized default string, else
the To header is the option value wrapped in double quotes and a truthy
option value is appended to the recipient address list. -/
def cc_policy (cfg : Config) (headers : Dict String)
    (recip_adds : List String) : Dict String × List String :=
  if cfg.use_public_cc then
    (dictSet headers "Cc" (joinComma recip_adds), recip_adds)
  else if cfg.email_to = to_default then
    (dictSet headers "To" to_default, recip_adds)
  else
    (dictSet headers "To" ("\"" ++ cfg.email_to ++ "\""),
     if cfg.email_to ≠ "" then recip_adds ++ [cfg.email_to] else recip_adds)

/-- The address list of mail.py 392; a recipient tuple is a non-empty
tuple and hence always truthy, so the comprehension keeps every entry. -/
def recip_addresses (recipients : List Rcpt) : List String :=
  recipients.map (fun x => x.2.2)

/-- Headers and recipient address list after the visibility policy
(mail.py 381-403). -/
def assemble_front (cfg : Config) (env : Env) (ev : Event)
    (recipients : List Rcpt) : Dict String × List String :=
  cc_policy cfg (base_headers cfg env ev) (recip_addresses recipients)

/-- The primary rendering `formatter.format(transport, realm, format,
event)` of mail.py 415. -/
def rendered_output (transport : String) (ev : Event) (format : String)
    (formatter : Formatter) : String :=
  formatter.format transport ev.realm format ev

/-- The crypto dispatch of mail.py 421-427: sign with the configured
private key, encrypt with the accumulated public keys, or sign then
encrypt; any other mode string leaves the body unchanged. -/
def crypto_transform (cfg : Config) (env : Env) (output : String)
    (pubkey_ids : List Nat) : String :=
  if cfg.crypto = "sign" then env.sign output cfg.private_key
  else if cfg.crypto = "encrypt" then env.encrypt output pubkey_ids
  else if cfg.crypto = "sign,encrypt" then
    env.sign_encrypt output pubkey_ids cfg.private_key
  else output

/-- The primary body after the optional crypto branch (mail.py 415-427):
the crypto transformation runs exactly when a crypto mode is configured
and key ids were supplied. -/
def primary_output (cfg : Config) (env : Env) (transport : String)
    (ev : Event) (format : String) (formatter : Formatter)
    (pubkey_ids : List Nat) : String :=
  let output := rendered_output transport ev format formatter
  if cfg.crypto ≠ "" ∧ pubkey_ids ≠ [] then
    crypto_transform cfg env output pubkey_ids
  else output

/-- The alternative style and alternative rendering of mail.py 418-442:
both stay falsy in the crypto branch; otherwise the formatter is asked
for an alternative style and, when that is truthy, for its rendering. -/
def alternate_pair (cfg : Config) (transport : String) (ev : Event)
    (format : String) (formatter : Formatter) (pubkey_ids : List Nat) :
    String × String :=
  if cfg.crypto ≠ "" ∧ pubkey_ids ≠ [] then ("", "")
  else
    let alt := formatter.alternative_style_for transport ev.realm format
    if alt ≠ "" then (alt, formatter.format transport ev.realm alt ev)
    else (alt, "")

/-- The rendering and crypto effects of mail.py 415-442 in order: the
primary rendering, then either one crypto invocation (for a recognized
mode) or the alternative rendering when an alternative style exists. -/
def body_trace (cfg : Config) (transport : String) (ev : Event)
    (format : String) (formatter : Formatter) (pubkey_ids : List Nat) :
    List Effect :=
  Effect.rendered format ::
  (if cfg.crypto ≠ "" ∧ pubkey_ids ≠ [] then
    (if cfg.crypto = "sign" ∨ cfg.crypto = "encrypt" ∨
        cfg.crypto = "sign,encrypt"
     then [Effect.cryptoApplied cfg.crypto] else [])
   else
    (if formatter.alternative_style_for transport ev.realm format ≠ ""
     then [Effect.rendered
            (formatter.alternative_style_for transport ev.realm format)]
     else []))

/-- Whether a trace contains a synchronous send or an enqueue. -/
def hasSendEffect (tr : List Effect) : Bool :=
  tr.any (fun e => match e with
    | .sentNow _ _ => true
    | .enqueuedMsg _ _ => true
    | _ => false)

/-- The root message assembled at mail.py 409-474: headers, the MIME
preamble, the alternative part attached first when the alternative
rendering is truthy, and the primary part attached last. -/
def assembled_message (cfg : Config) (env : Env) (transport : String)
    (ev : Event) (format : String) (formatter : Formatter)
    (pubkey_ids : List Nat) (headers : Dict String) : MailMessage :=
  let out := primary_output cfg env transport ev format formatter pubkey_ids
  let ap := alternate_pair cfg transport ev format formatter pubkey_ids
  { headers := headers
    preamble := "This is a multi-part message in MIME format."
    alt_part := if ap.2 ≠ "" then some (mime_class ap.1, ap.2) else none
    main_part := (mime_class format, out) }

/-- The observable outcome of one `_do_send` call: the headers and
recipient address list after the visibility policy, the assembled root
message and the delivered package (both absent when the call stopped for
lack of recipients), and the ordered effect trace. -/
structure DoSendOk where
  headers : Dict String
  recip_adds : List String
  message : Option MailMessage
  package : Option (String × List String × MailMessage)
  trace : List Effect
deriving DecidableEq

instance : Inhabited DoSendOk := ⟨⟨[], [], none, none, []⟩⟩

/-- EmailDistributor._do_send (mail.py 378-490).  After the visibility
policy an empty recipient list stops the call before any rendering; the
body is rendered and optionally transformed by the crypto engine; with
the 'none' body encoding a non-ASCII body raises the TracError of mail.py
449 before anything is attached or sent; otherwise the message is
assembled, the decorator chain runs when decorators are registered, and
the package is sent synchronously or enqueued. -/
def do_send (cfg : Config) (env : Env) (transport : String) (ev : Event)
    (format : String) (recipients : List Rcpt) (formatter : Formatter)
    (pubkey_ids : List Nat) : Except (String × List Effect) DoSendOk :=
  let front := assemble_front cfg env ev recipients
  if front.2 = [] then
    .ok { headers := front.1, recip_adds := front.2, message := none,
          package := none, trace := [] }
  else
    let out := primary_output cfg env transport ev format formatter pubkey_ids
    let tr := body_trace cfg transport ev format formatter pubkey_ids
    if bodyEncodingNone cfg ∧ ¬ pyIsAscii out then
      .error ("Ticket contains non-ASCII chars. Please change encoding setting",
              tr)
    else
      let message := assembled_message cfg env transport ev format formatter
        pubkey_ids front.1
      let message2 :=
        if env.hasDecorators then env.runDecorators ev message else message
      let tr2 := tr ++ (if env.hasDecorators then [Effect.decorated] else [])
      let deliver :=
        if cfg.use_threaded_delivery then
          Effect.enqueuedMsg (from_header cfg) front.2
        else Effect.sentNow (from_header cfg) front.2
      .ok { headers := front.1, recip_adds := front.2,
            message := some message,
            package := some (from_header cfg, front.2, message2),
            trace := tr2 ++ [deliver] }

/-- One send loop of mail.py 304-318: groups with an empty recipient set
or a format missing from the catalog are skipped, the others get one
`_do_send` call. -/
def send_loop (cfg : Config) (env : Env) (transport : String) (ev : Event)
    (fmts : Dict Formatter) (d : Dict (List Rcpt)) (pk : List Nat) :
    List (String × Except (String × List Effect) DoSendOk) :=
  d.filterMap (fun kv =>
    if kv.2 = [] then none
    else match dictGet fmts kv.1 with
      | none => none
      | some f => some (kv.1, do_send cfg env transport ev kv.1 kv.2 f pk))

/-- The outcome of one `distribute` call: an early return for a disabled
distributor or unsupported transport, an early return for an empty
format catalog, or the classification state together with the send
calls of both loops. -/
inductive DistributeResult where
  | skipped
  | noFormats
  | ran (st : ClassState)
      (sends : List (String × Except (String × List Effect) DoSendOk))

/-- The transports generator of mail.py 193-194. -/
def transports : List String := ["email"]

/-- EmailDistributor.distribute (mail.py 210-318): transport/enabled
check, catalog construction, the per-recipient classification loop, then
the plain send loop followed by the encrypt send loop, the latter passing
the accumulated key-id list. -/
def distribute (cfg : Config) (env : Env) (transport : String)
    (recipients : List Rcpt) (ev : Event) : DistributeResult :=
  let found := transports.any (fun t => t == transport)
  if !cfg.enabled || !found then .skipped
  else
    let fmts := formats env.formatters transport ev.realm
    if fmts.isEmpty then .noFormats
    else
      let st := classify cfg env transport ev fmts recipients
      .ran st
        (send_loop cfg env transport ev fmts st.msgdict [] ++
         send_loop cfg env transport ev fmts st.msgdict_encrypt
           st.msg_pubkey_ids)

/-- The grouping state produced by one `distribute` call; the early
returns leave both groups empty. -/
def distributeGroups (cfg : Config) (env : Env) (transport : String)
    (recipients : List Rcpt) (ev : Event) : ClassState :=
  match distribute cfg env transport recipients ev with
  | .ran st _ => st
  | _ => ⟨[], [], []⟩

/-!
A small heap of Python list objects, used to state the aliasing
behaviour of `_get_decorators` (mail.py 498-499) and of the decorator
chain started at mail.py 476-480: list references are heap indices, so
mutating one list can be distinguished from mutating a copy.  Cells hold
decorator names.
-/

/-- A heap of Python list objects addressed by allocation index. -/
abbrev PyHeap := List (List String)

/-- Contents of the list object at reference `r`. -/
def heapGet : PyHeap → Nat → List String
  | [], _ => []
  | v :: _, 0 => v
  | _ :: t, r + 1 => heapGet t r

/-- In-place replacement of the contents of the list object at `r`. -/
def heapSet : PyHeap → Nat → List String → PyHeap
  | [], _, _ => []
  | _ :: t, 0, v => v :: t
  | x :: t, r + 1, v => x :: heapSet t r v

/-- Allocation of a fresh list object holding `v`. -/
def heapAlloc (h : PyHeap) (v : List String) : PyHeap × Nat :=
  (h ++ [v], h.length)

/-- EmailDistributor._get_decorators (mail.py 498-499): the slice
`self.decorators[:]` allocates a fresh list object with the same
contents as the registered extension-point list. -/
def get_decorators (h : PyHeap) (registered : Nat) : PyHeap × Nat :=
  heapAlloc h (heapGet h registered)

/-- Python `list.pop()`: removes and returns the last element, or fails
on an empty list. -/
def popLast : List String → Option (List String × String)
  | [] => none
  | [a] => some ([], a)
  | a :: b :: t =>
    match popLast (b :: t) with
    | none => none
    | some (rest, d) => some (a :: rest, d)

/-- The decorator chain run to completion: `_do_send` pops the first
decorator when the list is non-empty (mail.py 478-480) and, per the
IAnnouncementEmailDecorator contract, each decorator pops and invokes
the next from the same list object.  The fuel argument bounds the pops
by the initial list length.  Returns the final heap and the decorator
invocation order. -/
def pop_chain : Nat → PyHeap → Nat → PyHeap × List String
  | 0, h, _ => (h, [])
  | fuel + 1, h, r =>
    match popLast (heapGet h r) with
    | none => (h, [])
    | some (rest, d) =>
      let p := pop_chain fuel (heapSet h r rest) r
      (p.1, d :: p.2)

/-- Running the whole decorator chain against the list object at `r`. -/
def run_decorator_chain (h : PyHeap) (r : Nat) : PyHeap × List String :=
  pop_chain (heapGet h r).length h r

/-- The decoration step of one `_do_send` call: take a fresh copy of the
registered decorator list via `_get_decorators`, then run the chain,
which pops from that copy. -/
def do_send_decoration (h : PyHeap) (registered : Nat) :
    PyHeap × List String :=
  let p := get_decorators h registered
  run_decorator_chain p.1 p.2

/-!
Helper lemmas about the dictionary and set operations.
-/

/-- Lookup after a dict assignment: the assigned key yields the new
value, any other key is unaffected. -/
theorem dictGet_dictSet {α : Type} (d : Dict α) (k : String) (v : α)
    (s : String) :
    dictGet (dictSet d k v) s = if k = s then some v else dictGet d s := by
  induction d with
  | nil => rfl
  | cons p rest ih =>
    obtain ⟨k', v'⟩ := p
    by_cases h1 : k' = k
    · subst h1
      simp only [dictSet, if_pos rfl, dictGet]
      by_cases h2 : k' = s <;> simp [h2]
    · simp only [dictSet, if_neg h1, dictGet]
      by_cases h2 : k' = s
      · subst h2
        have h3 : ¬ k = k' := fun he => h1 he.symm
        simp [h3]
      · simp only [if_neg h2, ih]

/-- Membership in a Python set after an add. -/
theorem mem_setAdd {s : List Rcpt} {x y : Rcpt} :
    y ∈ setAdd s x ↔ y ∈ s ∨ y = x := by
  unfold setAdd
  split
  · constructor
    · exact Or.inl
    · rintro (h | rfl)
      · exact h
      · assumption
  · simp [List.mem_append]

/-- Membership in a grouping dict after a `setdefault(...).add(...)`. -/
theorem inGroup_dictAddTo (d : Dict (List Rcpt)) (k : String) (x y : Rcpt) :
    inGroup (dictAddTo d k x) y = true ↔ (inGroup d y = true ∨ y = x) := by
  induction d with
  | nil =>
    simp [dictAddTo, inGroup, mem_setAdd]
  | cons p rest ih =>
    obtain ⟨k', s⟩ := p
    simp only [dictAddTo]
    split
    · simp only [inGroup, List.any_cons, Bool.or_eq_true,
        decide_eq_true_eq] at ih ⊢
      rw [mem_setAdd]
      tauto
    · simp only [inGroup, List.any_cons, Bool.or_eq_true,
        decide_eq_true_eq] at ih ⊢
      tauto

/-- The empty grouping dict has no members. -/
theorem inGroup_nil (x : Rcpt) : inGroup [] x = false := rfl

/-!
Lemmas about the classification loop.
-/

/-- The branch condition of mail.py 274-275 evaluated on the address
stored in a recipient tuple: an active crypto mode and no local-regex
match. -/
def encCond (cfg : Config) (env : Env) (x : Rcpt) : Bool :=
  cryptoActive cfg && !(env.localMatch x.2.2)

/-- Case analysis of the per-recipient classification: a recipient is
skipped, or lands with its resolved address in the plain group (when the
encryption condition is false) or in the encrypt group (when it is
true). -/
theorem classifyOne_cases (cfg : Config) (env : Env) (transport : String)
    (ev : Event) (fmts : Dict Formatter) (r : Rcpt) :
    classifyOne cfg env transport ev fmts r = .skip ∨
    (classifyOne cfg env transport ev fmts r =
        .toPlain (chosen_format cfg env transport ev fmts r)
          (r.1, r.2.1, resolved_address env r) ∧
      encCond cfg env (r.1, r.2.1, resolved_address env r) = false) ∨
    (classifyOne cfg env transport ev fmts r =
        .toEncrypt (chosen_format cfg env transport ev fmts r)
          (r.1, r.2.1, resolved_address env r)
          (env.getPubkeyIds (resolved_address env r)) ∧
      encCond cfg env (r.1, r.2.1, resolved_address env r) = true) := by
  simp only [classifyOne]
  split
  · exact Or.inl rfl
  · split
    · exact Or.inl rfl
    · split
      · split
        · split
          · refine Or.inr (Or.inr ⟨rfl, ?_⟩)
            rename_i hcond hpk
            simpa [encCond] using hcond
          · exact Or.inl rfl
        · refine Or.inr (Or.inl ⟨rfl, ?_⟩)
          rename_i hcond
          simpa [encCond] using hcond
      · exact Or.inl rfl

/-- With a truthy format, a truthy resolved address, an allow-regex
match and a local-regex match, the recipient is classified into the
plain group, whatever the crypto mode. -/
theorem classifyOne_eq_toPlain (cfg : Config) (env : Env)
    (transport : String) (ev : Event) (fmts : Dict Formatter) (r : Rcpt)
    (hcf : chosen_format cfg env transport ev fmts r ≠ "")
    (hra : resolved_address env r ≠ "")
    (hallow : env.allowMatch (resolved_address env r) = true)
    (hlocal : env.localMatch (resolved_address env r) = true) :
    classifyOne cfg env transport ev fmts r =
      .toPlain (chosen_format cfg env transport ev fmts r)
        (r.1, r.2.1, resolved_address env r) := by
  simp only [classifyOne]
  rw [if_neg hcf, if_neg hra, if_pos hallow]
  simp [hlocal]

/-- The two-group invariant carried through the classification loop:
every tuple of the plain group fails the encryption condition and every
tuple of the encrypt group satisfies it. -/
def groupsInv (cfg : Config) (env : Env) (st : ClassState) : Prop :=
  (∀ x : Rcpt, inGroup st.msgdict x = true → encCond cfg env x = false) ∧
  (∀ x : Rcpt, inGroup st.msgdict_encrypt x = true → encCond cfg env x = true)

/-- One classification step preserves the two-group invariant. -/
theorem classifyStep_inv (cfg : Config) (env : Env) (transport : String)
    (ev : Event) (fmts : Dict Formatter) (st : ClassState) (r : Rcpt)
    (h : groupsInv cfg env st) :
    groupsInv cfg env (classifyStep cfg env transport ev fmts st r) := by
  obtain ⟨hp, he⟩ := h
  unfold classifyStep
  rcases classifyOne_cases cfg env transport ev fmts r with
    hc | ⟨hc, hcond⟩ | ⟨hc, hcond⟩ <;> rw [hc]
  · exact ⟨hp, he⟩
  · constructor
    · intro x hx
      rcases (inGroup_dictAddTo _ _ _ _).1
          (by simpa [applyClassification] using hx) with h' | rfl
      · exact hp x h'
      · exact hcond
    · intro x hx
      exact he x (by simpa [applyClassification] using hx)
  · constructor
    · intro x hx
      exact hp x (by simpa [applyClassification] using hx)
    · intro x hx
      rcases (inGroup_dictAddTo _ _ _ _).1
          (by simpa [applyClassification] using hx) with h' | rfl
      · exact he x h'
      · exact hcond

/-- The classification fold preserves the two-group invariant. -/
theorem classify_fold_inv (cfg : Config) (env : Env) (transport : String)
    (ev : Event) (fmts : Dict Formatter) :
    ∀ (rs : List Rcpt) (st : ClassState), groupsInv cfg env st →
      groupsInv cfg env
        (rs.foldl (classifyStep cfg env transport ev fmts) st)
  | [], _, h => h
  | r :: rest, st, h =>
    classify_fold_inv cfg env transport ev fmts rest _
      (classifyStep_inv cfg env transport ev fmts st r h)

/-- The groups built by the classification loop satisfy the two-group
invariant. -/
theorem classify_inv (cfg : Config) (env : Env) (transport : String)
    (ev : Event) (fmts : Dict Formatter) (rs : List Rcpt) :
    groupsInv cfg env (classify cfg env transport ev fmts rs) :=
  classify_fold_inv cfg env transport ev fmts rs ⟨[], [], []⟩
    ⟨fun x hx => by simp [inGroup] at hx, fun x hx => by simp [inGroup] at hx⟩

/-- Plain-group membership survives one classification step. -/
theorem classifyStep_plain_mono (cfg : Config) (env : Env)
    (transport : String) (ev : Event) (fmts : Dict Formatter)
    (st : ClassState) (r : Rcpt) (x : Rcpt)
    (h : inGroup st.msgdict x = true) :
    inGroup (classifyStep cfg env transport ev fmts st r).msgdict x = true := by
  unfold classifyStep
  cases classifyOne cfg env transport ev fmts r with
  | skip => exact h
  | toPlain f t =>
    exact (inGroup_dictAddTo _ _ _ _).2 (Or.inl (by simpa using h))
  | toEncrypt f t ids => exact h

/-- Plain-group membership survives the rest of the fold. -/
theorem classify_fold_plain_mono (cfg : Config) (env : Env)
    (transport : String) (ev : Event) (fmts : Dict Formatter) :
    ∀ (rs : List Rcpt) (st : ClassState) (x : Rcpt),
      inGroup st.msgdict x = true →
      inGroup
        ((rs.foldl (classifyStep cfg env transport ev fmts) st)).msgdict x =
        true
  | [], _, _, h => h
  | r :: rest, st, x, h =>
    classify_fold_plain_mono cfg env transport ev fmts rest _ x
      (classifyStep_plain_mono cfg env transport ev fmts st r x h)

/-- A recipient of the input list that classifies to the plain group is
in the plain group after the fold. -/
theorem classify_fold_adds_toPlain (cfg : Config) (env : Env)
    (transport : String) (ev : Event) (fmts : Dict Formatter) :
    ∀ (rs : List Rcpt) (st : ClassState) (r : Rcpt) (f : String) (t : Rcpt),
      r ∈ rs →
      classifyOne cfg env transport ev fmts r = .toPlain f t →
      inGroup
        ((rs.foldl (classifyStep cfg env transport ev fmts) st)).msgdict t =
        true := by
  intro rs
  induction rs with
  | nil => intro st r f t hmem; exact absurd hmem (List.not_mem_nil r)
  | cons a rest ih =>
    intro st r f t hmem hone
    rcases List.mem_cons.1 hmem with rfl | hmem'
    · simp only [List.foldl_cons]
      apply classify_fold_plain_mono
      unfold classifyStep
      rw [hone]
      exact (inGroup_dictAddTo _ _ _ _).2 (Or.inr rfl)
    · simp only [List.foldl_cons]
      exact ih _ r f t hmem' hone

/-- A `distribute` call either returns early with empty groups or runs
the classification loop over the full catalog. -/
theorem distributeGroups_cases (cfg : Config) (env : Env) (transport : String)
    (rs : List Rcpt) (ev : Event) :
    distributeGroups cfg env transport rs ev = ⟨[], [], []⟩ ∨
    distributeGroups cfg env transport rs ev =
      classify cfg env transport ev
        (formats env.formatters transport ev.realm) rs := by
  by_cases h1 : (!cfg.enabled || !transports.any (fun t => t == transport)) = true
  · left
    simp [distributeGroups, distribute, h1]
  · by_cases h2 : (formats env.formatters transport ev.realm).isEmpty = true
    · left
      simp [distributeGroups, distribute, h1, h2]
    · right
      simp [distributeGroups, distribute, h1, h2]

/-- With the distributor enabled, the email transport and a non-empty
catalog, `distribute` runs the classification loop. -/
theorem distributeGroups_ran (cfg : Config) (env : Env) (rs : List Rcpt)
    (ev : Event) (hen : cfg.enabled = true)
    (hf : (formats env.formatters "email" ev.realm).isEmpty = false) :
    distributeGroups cfg env "email" rs ev =
      classify cfg env "email" ev
        (formats env.formatters "email" ev.realm) rs := by
  simp [distributeGroups, distribute, transports, hen, hf]

/-- The groups of any `distribute` call satisfy the two-group
invariant. -/
theorem distributeGroups_inv (cfg : Config) (env : Env) (transport : String)
    (rs : List Rcpt) (ev : Event) :
    groupsInv cfg env (distributeGroups cfg env transport rs ev) := by
  rcases distributeGroups_cases cfg env transport rs ev with h | h <;> rw [h]
  · exact ⟨fun x hx => by simp [inGroup] at hx,
           fun x hx => by simp [inGroup] at hx⟩
  · exact classify_inv cfg env transport ev _ rs

/-!
Concrete sample instances used by the evaluation theorems and
witnesses.
-/

/-- A sample formatter offering only `text/plain` and no alternative
style. -/
def fmtPlainSample : Formatter :=
  { name := "sampleFormatter"
    styles := fun _ _ => ["text/plain"]
    format := fun _ _ _ _ => "ticket body"
    alternative_style_for := fun _ _ _ => "" }

/-- A sample formatter whose rendering contains non-ASCII characters. -/
def fmtUnicodeSample : Formatter :=
  { name := "unicodeFormatter"
    styles := fun _ _ => ["text/plain"]
    format := fun _ _ _ _ => "héllo wörld"
    alternative_style_for := fun _ _ _ => "" }

/-- A sample ticket event. -/
def evSample : Event := { realm := "ticket", id := "ev1" }

/-- A sample configuration with default-like settings and no crypto. -/
def cfgBase : Config :=
  { enabled := true
    email_from := "trac@localhost"
    from_name := ""
    project_name := "My Project"
    reply_to := "trac@localhost"
    mime_encoding := "base64"
    use_public_cc := false
    email_to := to_default
    use_threaded_delivery := false
    default_email_format := "text/plain"
    crypto := ""
    private_key := "DEADBEEF" }

/-- A sample environment: the always-true allow match models the
default empty allow pattern (an empty-pattern regex search matches any
address), the local regex matches nothing, and the keyring holds no
public key for any address. -/
def envBase : Env :=
  { formatters := [fmtPlainSample]
    resolvers := []
    prefFormat := fun _ _ _ => none
    allowMatch := fun _ => true
    localMatch := fun _ => false
    getPubkeyIds := fun _ => []
    sign := fun s _ => "SIGNED(" ++ s ++ ")"
    encrypt := fun s _ => "ENCRYPTED(" ++ s ++ ")"
    sign_encrypt := fun s _ _ => "SIGNENCRYPTED(" ++ s ++ ")"
    message_id := fun _ => "<001.abc@localhost>"
    date := "Mon, 01 Jan 2026 00:00:00 -0000"
    hasDecorators := false
    runDecorators := fun _ m => m }

/-- The sample configuration with the `encrypt` crypto mode. -/
def cfgEncryptMode : Config := { cfgBase with crypto := "encrypt" }

/-!
Claim theorems.
-/

/-- C1: evaluation of the embedded `distribute` at a recipient whose
address has no matching public key (`get_pubkey_ids` returns the empty
list) under crypto mode `encrypt`: contrary to the claim, the recipient
is not dropped but added to the encrypt group, while the accumulated
key-id list stays empty, because the Python 2 comparison
`pubkey_ids > 0` of mail.py 278 is true even for an empty list. -/
theorem distribute_missing_pubkey_not_dropped :
    inGroup (distributeGroups cfgEncryptMode envBase "email"
        [("alice", true, "alice@example.com")] evSample).msgdict_encrypt
      ("alice", true, "alice@example.com") = true ∧
    (distributeGroups cfgEncryptMode envBase "email"
        [("alice", true, "alice@example.com")] evSample).msg_pubkey_ids =
      [] := by
  constructor <;> rfl

/-- C2: evaluation of the embedded per-recipient classification at a
recipient whose address has no matching public key under crypto mode
`encrypt`: the no-public-key failure does not leave the state unchanged
(a skip) as the claim requires; the recipient is classified into the
encrypt group with an empty key-id contribution, again because of the
`pubkey_ids > 0` comparison of mail.py 278 (which under Python 3 would
instead raise a TypeError inside the loop). -/
theorem classify_missing_pubkey_not_skipped :
    classifyOne cfgEncryptMode envBase "email" evSample
        (formats envBase.formatters "email" "ticket")
        ("bob", true, "bob@example.org") =
      .toEncrypt "text/plain" ("bob", true, "bob@example.org") [] := by
  rfl

/-- C7: a recipient whose stored address matches the local-exemption
regex is never in the encrypt group of a `distribute` call, whatever the
crypto mode; and a recipient of the input list that reaches
classification (truthy format, truthy resolved address, allow-regex
match) with a local-regex match is classified into the plain group. -/
theorem distribute_local_exempt (cfg : Config) (env : Env)
    (transport : String) (rs : List Rcpt) (ev : Event) (x r : Rcpt) :
    (env.localMatch x.2.2 = true →
      inGroup (distributeGroups cfg env transport rs ev).msgdict_encrypt x =
        false) ∧
    (cfg.enabled = true →
     (formats env.formatters "email" ev.realm).isEmpty = false →
     r ∈ rs →
     chosen_format cfg env "email" ev
       (formats env.formatters "email" ev.realm) r ≠ "" →
     resolved_address env r ≠ "" →
     env.allowMatch (resolved_address env r) = true →
     env.localMatch (resolved_address env r) = true →
     inGroup (distributeGroups cfg env "email" rs ev).msgdict
       (r.1, r.2.1, resolved_address env r) = true) := by
  constructor
  · intro hl
    cases hb : inGroup
        (distributeGroups cfg env transport rs ev).msgdict_encrypt x with
    | false => rfl
    | true =>
      have hcond := (distributeGroups_inv cfg env transport rs ev).2 x hb
      simp [encCond, hl] at hcond
  · intro hen hfmts hmem hcf hra hallow hlocal
    rw [distributeGroups_ran cfg env rs ev hen hfmts]
    exact classify_fold_adds_toPlain cfg env "email" ev _ rs ⟨[], [], []⟩ r _ _
      hmem
      (classifyOne_eq_toPlain cfg env "email" ev _ r hcf hra hallow hlocal)

/-- The sample environment with a local regex that matches every
address. -/
def envAllLocal : Env := { envBase with localMatch := fun _ => true }

/-- Witness for C7: under crypto mode `encrypt` a local-matching
recipient ends up in the plain group and not in the encrypt group. -/
theorem distribute_local_exempt_witness :
    inGroup (distributeGroups cfgEncryptMode envAllLocal "email"
        [("carol", true, "carol@example.com")] evSample).msgdict_encrypt
      ("carol", true, "carol@example.com") = false ∧
    inGroup (distributeGroups cfgEncryptMode envAllLocal "email"
        [("carol", true, "carol@example.com")] evSample).msgdict
      ("carol", true, "carol@example.com") = true :=
  ⟨(distribute_local_exempt cfgEncryptMode envAllLocal "email"
      [("carol", true, "carol@example.com")] evSample
      ("carol", true, "carol@example.com")
      ("carol", true, "carol@example.com")).1 rfl,
   (distribute_local_exempt cfgEncryptMode envAllLocal "email"
      [("carol", true, "carol@example.com")] evSample
      ("carol", true, "carol@example.com")
      ("carol", true, "carol@example.com")).2 rfl rfl
      (List.mem_singleton.2 rfl) (by decide) (by decide) rfl rfl⟩

/-- C8: within one `distribute` call no recipient tuple is a member of
both the plain grouping map and the encrypt grouping map. -/
theorem distribute_groups_mutually_exclusive (cfg : Config) (env : Env)
    (transport : String) (rs : List Rcpt) (ev : Event) (x : Rcpt) :
    ¬(inGroup (distributeGroups cfg env transport rs ev).msgdict x = true ∧
      inGroup (distributeGroups cfg env transport rs ev).msgdict_encrypt x =
        true) := by
  rintro ⟨h1, h2⟩
  have hp := (distributeGroups_inv cfg env transport rs ev).1 x h1
  have he := (distributeGroups_inv cfg env transport rs ev).2 x h2
  rw [hp] at he
  exact Bool.false_ne_true he

/-- Witness for C8 at a concrete call. -/
theorem distribute_groups_mutually_exclusive_witness :
    ¬(inGroup (distributeGroups cfgEncryptMode envBase "email"
        [("alice", true, "alice@example.com")] evSample).msgdict
        ("alice", true, "alice@example.com") = true ∧
      inGroup (distributeGroups cfgEncryptMode envBase "email"
        [("alice", true, "alice@example.com")] evSample).msgdict_encrypt
        ("alice", true, "alice@example.com") = true) :=
  distribute_groups_mutually_exclusive cfgEncryptMode envBase "email"
    [("alice", true, "alice@example.com")] evSample
    ("alice", true, "alice@example.com")

/-- Folding the style assignments of one formatter over a catalog: a
style the formatter advertises now maps to this formatter, any other
style is unaffected. -/
theorem stylesFold_get :
    ∀ (styles : List String) (d : Dict Formatter) (f : Formatter)
      (s : String),
      dictGet (styles.foldl (fun d' style => dictSet d' style f) d) s =
        if s ∈ styles then some f else dictGet d s
  | [], d, f, s => by simp
  | st :: rest, d, f, s => by
    simp only [List.foldl_cons]
    rw [stylesFold_get rest (dictSet d st f) f s, dictGet_dictSet]
    by_cases h1 : s ∈ rest <;> by_cases h2 : st = s <;>
      simp [h1, h2, List.mem_cons, eq_comm]

/-- A second formatter the catalog is built with, used to exhibit which
of two same-style formatters wins. -/
def fmtStyleFirst : Formatter :=
  { name := "firstRegistered"
    styles := fun _ _ => ["text/plain"]
    format := fun _ _ _ _ => "first body"
    alternative_style_for := fun _ _ _ => "" }

/-- A formatter registered after `fmtStyleFirst` advertising the same
style. -/
def fmtStyleSecond : Formatter :=
  { name := "secondRegistered"
    styles := fun _ _ => ["text/plain"]
    format := fun _ _ _ _ => "second body"
    alternative_style_for := fun _ _ _ => "" }

/-- Counterexample for C3: with two formatters advertising the same
style `text/plain`, the catalog built by `formats` does not map that
style to the formatter registered earlier. -/
theorem formats_first_wins_counterexample :
    dictGet (formats [fmtStyleFirst, fmtStyleSecond] "email" "ticket")
      "text/plain" ≠ some fmtStyleFirst := by
  intro h
  have hb : dictGet (formats [fmtStyleFirst, fmtStyleSecond] "email" "ticket")
      "text/plain" = some fmtStyleSecond := rfl
  rw [hb] at h
  have hn := congrArg (fun o => Option.map Formatter.name o) h
  simp [fmtStyleFirst, fmtStyleSecond] at hn

/-- C3 (amended): the catalog assignment `formats[style] = f` of mail.py
201 overwrites, so appending a formatter to the registration list makes
every style it advertises map to it; a style it does not advertise keeps
its earlier binding (the last registration wins). -/
theorem formats_last_registration_wins (fs : List Formatter) (f : Formatter)
    (transport realm s : String) :
    dictGet (formats (fs ++ [f]) transport realm) s =
      if s ∈ f.styles transport realm then some f
      else dictGet (formats fs transport realm) s := by
  have h1 : formats (fs ++ [f]) transport realm =
      (f.styles transport realm).foldl (fun d' style => dictSet d' style f)
        (formats fs transport realm) := by
    simp [formats, List.foldl_append]
  rw [h1]
  exact stylesFold_get (f.styles transport realm)
    (formats fs transport realm) f s

/-!
Lemmas about `_do_send`.
-/

/-- A successful `_do_send` call reports exactly the headers and the
recipient address list produced by the visibility policy. -/
theorem do_send_ok_front (cfg : Config) (env : Env) (transport : String)
    (ev : Event) (format : String) (rs : List Rcpt) (formatter : Formatter)
    (pk : List Nat) (res : DoSendOk)
    (hok : do_send cfg env transport ev format rs formatter pk = .ok res) :
    res.headers = (assemble_front cfg env ev rs).1 ∧
    res.recip_adds = (assemble_front cfg env ev rs).2 := by
  simp only [do_send] at hok
  split at hok
  · rw [Except.ok.injEq] at hok
    subst hok
    exact ⟨rfl, rfl⟩
  · split at hok
    · exact Except.noConfusion hok
    · rw [Except.ok.injEq] at hok
      subst hok
      exact ⟨rfl, rfl⟩

/-- C9: when the recipient address list is empty after the visibility
policy, `_do_send` stops as a no-op: no message is assembled, no package
is handed to delivery, and the effect trace is empty (nothing rendered,
no crypto call, no decorator run, nothing sent or enqueued). -/
theorem do_send_no_recipients (cfg : Config) (env : Env) (transport : String)
    (ev : Event) (format : String) (rs : List Rcpt) (formatter : Formatter)
    (pk : List Nat)
    (h : (assemble_front cfg env ev rs).2 = []) :
    do_send cfg env transport ev format rs formatter pk =
      .ok { headers := (assemble_front cfg env ev rs).1,
            recip_adds := [], message := none, package := none,
            trace := [] } := by
  simp [do_send, h]

/-- Witness for C9: with no recipients and the blind-CC default the
policy leaves the address list empty and the call is a no-op. -/
theorem do_send_no_recipients_witness :
    do_send cfgBase envBase "email" evSample "text/plain" [] fmtPlainSample
        [] =
      .ok { headers := (assemble_front cfgBase envBase evSample []).1,
            recip_adds := [], message := none, package := none,
            trace := [] } :=
  do_send_no_recipients cfgBase envBase "email" evSample "text/plain" []
    fmtPlainSample [] (by decide)

/-- With one of the three recognized crypto modes and supplied key ids,
the rendering and crypto effects are exactly one rendering followed by
one crypto invocation. -/
theorem body_trace_crypto (cfg : Config) (transport : String) (ev : Event)
    (format : String) (formatter : Formatter) (pk : List Nat)
    (hm : cfg.crypto = "sign" ∨ cfg.crypto = "encrypt" ∨
      cfg.crypto = "sign,encrypt")
    (hpk : pk ≠ []) :
    body_trace cfg transport ev format formatter pk =
      [Effect.rendered format, Effect.cryptoApplied cfg.crypto] := by
  rcases hm with h | h | h <;> simp [body_trace, h, hpk]

/-- With a configured crypto mode and supplied key ids no alternative
style or rendering is requested. -/
theorem alternate_pair_crypto (cfg : Config) (transport : String)
    (ev : Event) (format : String) (formatter : Formatter) (pk : List Nat)
    (hcne : cfg.crypto ≠ "") (hpk : pk ≠ []) :
    alternate_pair cfg transport ev format formatter pk = ("", "") := by
  simp [alternate_pair, hcne, hpk]

/-- With a configured crypto mode and supplied key ids the primary body
is the crypto transformation of the single rendering. -/
theorem primary_output_crypto (cfg : Config) (env : Env)
    (transport : String) (ev : Event) (format : String)
    (formatter : Formatter) (pk : List Nat)
    (hcne : cfg.crypto ≠ "") (hpk : pk ≠ []) :
    primary_output cfg env transport ev format formatter pk =
      crypto_transform cfg env (rendered_output transport ev format formatter)
        pk := by
  simp [primary_output, hcne, hpk]

/-- The rendering and crypto effects never contain a send or an
enqueue. -/
theorem hasSendEffect_body_trace (cfg : Config) (transport : String)
    (ev : Event) (format : String) (formatter : Formatter) (pk : List Nat) :
    hasSendEffect (body_trace cfg transport ev format formatter pk) =
      false := by
  simp only [body_trace, hasSendEffect, List.any_cons]
  split
  · split <;> simp
  · split <;> simp

/-- C5: with the `none` body encoding and a primary body that is not
representable in ASCII, `_do_send` raises the TracError of mail.py
449-450 with its human-readable message, after only rendering/crypto
effects: nothing is sent or enqueued (and the raise is not retried). -/
theorem do_send_nonascii_raises (cfg : Config) (env : Env)
    (transport : String) (ev : Event) (format : String) (rs : List Rcpt)
    (formatter : Formatter) (pk : List Nat)
    (h1 : (assemble_front cfg env ev rs).2 ≠ [])
    (h2 : bodyEncodingNone cfg = true)
    (h3 : pyIsAscii (primary_output cfg env transport ev format formatter pk)
      = false) :
    do_send cfg env transport ev format rs formatter pk =
      .error ("Ticket contains non-ASCII chars. Please change encoding setting",
        body_trace cfg transport ev format formatter pk) ∧
    hasSendEffect (body_trace cfg transport ev format formatter pk) =
      false := by
  refine ⟨?_, hasSendEffect_body_trace cfg transport ev format formatter pk⟩
  simp [do_send, h1, h2, h3]

/-- The sample configuration with the ASCII-only `none` encoding. -/
def cfgNoneEnc : Config := { cfgBase with mime_encoding := "none" }

/-- Witness for C5: a non-ASCII rendering under the `none` encoding
raises the encoding TracError and nothing is sent. -/
theorem do_send_nonascii_raises_witness :
    do_send cfgNoneEnc envBase "email" evSample "text/plain"
        [("bob", true, "bob@example.org")] fmtUnicodeSample [] =
      .error ("Ticket contains non-ASCII chars. Please change encoding setting",
        body_trace cfgNoneEnc "email" evSample "text/plain" fmtUnicodeSample
          []) ∧
    hasSendEffect (body_trace cfgNoneEnc "email" evSample "text/plain"
        fmtUnicodeSample []) = false :=
  do_send_nonascii_raises cfgNoneEnc envBase "email" evSample "text/plain"
    [("bob", true, "bob@example.org")] fmtUnicodeSample [] (by decide)
    (by decide) (by decide)

/-- Number of crypto invocations recorded in a trace. -/
def countCryptoEffects (tr : List Effect) : Nat :=
  (tr.filter (fun e => match e with
    | .cryptoApplied _ => true
    | _ => false)).length

/-- Number of renderings recorded in a trace. -/
def countRenderEffects (tr : List Effect) : Nat :=
  (tr.filter (fun e => match e with
    | .rendered _ => true
    | _ => false)).length

/-- C6: with a recognized crypto mode and a non-empty key-id list, a
successful `_do_send` attaches as primary body the corresponding crypto
operation (sign, encrypt, or sign-then-encrypt with the supplied keys)
applied exactly once to the formatter's single rendering, and no
alternative part is attached: the trace holds exactly one crypto
invocation and exactly one rendering. -/
theorem do_send_crypto_applied_once (cfg : Config) (env : Env)
    (transport : String) (ev : Event) (format : String) (rs : List Rcpt)
    (formatter : Formatter) (pk : List Nat) (res : DoSendOk)
    (m : MailMessage)
    (hm : cfg.crypto = "sign" ∨ cfg.crypto = "encrypt" ∨
      cfg.crypto = "sign,encrypt")
    (hpk : pk ≠ [])
    (hok : do_send cfg env transport ev format rs formatter pk = .ok res)
    (hmsg : res.message = some m) :
    m.main_part.2 =
      crypto_transform cfg env
        (rendered_output transport ev format formatter) pk ∧
    m.alt_part = none ∧
    countCryptoEffects res.trace = 1 ∧
    countRenderEffects res.trace = 1 := by
  have hcne : cfg.crypto ≠ "" := by
    rcases hm with h | h | h <;> simp [h]
  simp only [do_send] at hok
  split at hok
  · rw [Except.ok.injEq] at hok
    subst hok
    exact absurd hmsg (by simp)
  · split at hok
    · exact Except.noConfusion hok
    · rw [Except.ok.injEq] at hok
      subst hok
      simp only [Option.some.injEq] at hmsg
      have hmm : m = assembled_message cfg env transport ev format formatter
          pk (assemble_front cfg env ev rs).1 := hmsg.symm
      subst hmm
      refine ⟨?_, ?_, ?_, ?_⟩
      · simp only [assembled_message,
          primary_output_crypto cfg env transport ev format formatter pk
            hcne hpk]
      · simp only [assembled_message,
          alternate_pair_crypto cfg transport ev format formatter pk hcne
            hpk]
        simp
      · rw [body_trace_crypto cfg transport ev format formatter pk hm hpk]
        cases hd : env.hasDecorators <;>
          cases ht : cfg.use_threaded_delivery <;>
            simp [countCryptoEffects, List.filter_append, hd, ht]
      · rw [body_trace_crypto cfg transport ev format formatter pk hm hpk]
        cases hd : env.hasDecorators <;>
          cases ht : cfg.use_threaded_delivery <;>
            simp [countRenderEffects, List.filter_append, hd, ht]

instance : Inhabited MailMessage := ⟨⟨[], "", none, ("", "")⟩⟩

/-- The sample configuration with the `sign,encrypt` crypto mode. -/
def cfgSignEncryptMode : Config := { cfgBase with crypto := "sign,encrypt" }

/-- The successful result of the sample sign-and-encrypt `_do_send`
call. -/
def resSignEncrypt : DoSendOk :=
  ((do_send cfgSignEncryptMode envBase "email" evSample "text/plain"
      [("alice", true, "alice@example.com")] fmtPlainSample
      [43981]).toOption).getD default

/-- The root message assembled by the sample sign-and-encrypt call. -/
def msgSignEncrypt : MailMessage := resSignEncrypt.message.getD default

/-- Witness for C6 at mode `sign,encrypt` with key id 0xABCD (43981). -/
theorem do_send_crypto_applied_once_witness :
    msgSignEncrypt.main_part.2 =
      crypto_transform cfgSignEncryptMode envBase
        (rendered_output "email" evSample "text/plain" fmtPlainSample)
        [43981] ∧
    msgSignEncrypt.alt_part = none ∧
    countCryptoEffects resSignEncrypt.trace = 1 ∧
    countRenderEffects resSignEncrypt.trace = 1 :=
  do_send_crypto_applied_once cfgSignEncryptMode envBase "email" evSample
    "text/plain" [("alice", true, "alice@example.com")] fmtPlainSample
    [43981] resSignEncrypt msgSignEncrypt
    (Or.inr (Or.inr rfl)) (by decide) rfl rfl

/-- C4 (amended): with blind CC, an `email_to` option equal to its
default sentinel gives the literal localized To header
`undisclosed-recipients: ;`; any other option value is placed in the To
header wrapped in double quotes, and is appended (unquoted) to the
recipient list handed to the sender exactly when it is non-empty. -/
theorem do_send_blind_cc (cfg : Config) (env : Env) (transport : String)
    (ev : Event) (format : String) (rs : List Rcpt) (formatter : Formatter)
    (pk : List Nat) (res : DoSendOk)
    (hcc : cfg.use_public_cc = false)
    (hok : do_send cfg env transport ev format rs formatter pk = .ok res) :
    (cfg.email_to = to_default →
      dictGet res.headers "To" = some to_default) ∧
    (cfg.email_to ≠ to_default →
      dictGet res.headers "To" = some ("\"" ++ cfg.email_to ++ "\"") ∧
      res.recip_adds =
        (if cfg.email_to ≠ "" then
          recip_addresses rs ++ [cfg.email_to]
         else recip_addresses rs)) := by
  obtain ⟨hh, hr⟩ :=
    do_send_ok_front cfg env transport ev format rs formatter pk res hok
  rw [hh, hr]
  simp only [assemble_front, cc_policy, hcc, Bool.false_eq_true, if_false]
  by_cases he : cfg.email_to = to_default
  · rw [if_pos he]
    constructor
    · intro _
      rw [dictGet_dictSet]
      simp
    · intro hne
      exact absurd he hne
  · rw [if_neg he]
    constructor
    · intro h
      exact absurd h he
    · intro _
      refine ⟨?_, rfl⟩
      rw [dictGet_dictSet]
      simp

/-- The sample configuration with an empty custom `email_to` option. -/
def cfgEmptyTo : Config := { cfgBase with email_to := "" }

/-- The sample configuration with custom `email_to` ops@example.com. -/
def cfgOpsTo : Config := { cfgBase with email_to := "ops@example.com" }

/-- The successful `_do_send` result under the empty custom To. -/
def resEmptyTo : DoSendOk :=
  ((do_send cfgEmptyTo envBase "email" evSample "text/plain"
      [("bob", true, "bob@example.org")] fmtPlainSample []).toOption).getD
    default

/-- The successful `_do_send` result under the ops@example.com To. -/
def resOpsTo : DoSendOk :=
  ((do_send cfgOpsTo envBase "email" evSample "text/plain"
      [("bob", true, "bob@example.org")] fmtPlainSample []).toOption).getD
    default

/-- Counterexample for C4: with blind CC and an empty custom To option
the To header is the quoted empty string and not the claimed literal
`undisclosed-recipients: ;`, and with custom To ops@example.com the
header value is the quoted string and not the bare address. -/
theorem do_send_custom_to_counterexample :
    dictGet resEmptyTo.headers "To" = some "\"\"" ∧
    ("\"\"" : String) ≠ to_default ∧
    dictGet resOpsTo.headers "To" = some "\"ops@example.com\"" ∧
    ("\"ops@example.com\"" : String) ≠ "ops@example.com" :=
  ⟨rfl, by decide, rfl, by decide⟩

/-- Witness for C4 (amended) at the ops@example.com custom To. -/
theorem do_send_blind_cc_witness :
    dictGet resOpsTo.headers "To" = some "\"ops@example.com\"" ∧
    resOpsTo.recip_adds = ["bob@example.org", "ops@example.com"] := by
  have h := (do_send_blind_cc cfgOpsTo envBase "email" evSample "text/plain"
    [("bob", true, "bob@example.org")] fmtPlainSample [] resOpsTo rfl
    rfl).2 (by decide)
  exact ⟨h.1, h.2.trans (by decide)⟩

/-!
Lemmas about the decorator-list heap model.
-/

/-- Writing one list object leaves every other object unchanged. -/
theorem heapGet_heapSet_ne :
    ∀ (h : PyHeap) (r r' : Nat) (v : List String), r ≠ r' →
      heapGet (heapSet h r v) r' = heapGet h r'
  | [], _, _, _, _ => rfl
  | _ :: _, 0, 0, _, hne => absurd rfl hne
  | _ :: _, 0, _ + 1, _, _ => rfl
  | _ :: _, _ + 1, 0, _, _ => rfl
  | _ :: t, r + 1, r' + 1, v, hne =>
    heapGet_heapSet_ne t r r' v (fun he => hne (by rw [he]))

/-- Writing an allocated list object stores the new contents. -/
theorem heapGet_heapSet_self :
    ∀ (h : PyHeap) (r : Nat) (v : List String), r < h.length →
      heapGet (heapSet h r v) r = v
  | [], _, _, hlt => absurd hlt (by simp)
  | _ :: _, 0, _, _ => rfl
  | _ :: t, r + 1, v, hlt =>
    heapGet_heapSet_self t r v (Nat.lt_of_succ_lt_succ hlt)

/-- A reference holding a non-empty list is allocated. -/
theorem heapGet_ne_nil_lt :
    ∀ (h : PyHeap) (r : Nat), heapGet h r ≠ [] → r < h.length
  | [], _, hne => absurd rfl hne
  | _ :: _, 0, _ => Nat.succ_pos _
  | _ :: t, r + 1, hne => Nat.succ_lt_succ (heapGet_ne_nil_lt t r hne)

/-- Writing a list object keeps the heap size. -/
theorem heapSet_length :
    ∀ (h : PyHeap) (r : Nat) (v : List String),
      (heapSet h r v).length = h.length
  | [], _, _ => rfl
  | _ :: _, 0, _ => rfl
  | _ :: t, r + 1, v => by
    simp only [heapSet, List.length_cons, heapSet_length t r v]

/-- Reading below the old end of an extended heap sees the old
object. -/
theorem heapGet_append_left :
    ∀ (h : PyHeap) (r : Nat) (v : List String), r < h.length →
      heapGet (h ++ [v]) r = heapGet h r
  | [], _, _, hlt => absurd hlt (by simp)
  | _ :: _, 0, _, _ => rfl
  | _ :: t, r + 1, v, hlt =>
    heapGet_append_left t r v (Nat.lt_of_succ_lt_succ hlt)

/-- Reading the freshly allocated object sees the allocated contents. -/
theorem heapGet_append_self :
    ∀ (h : PyHeap) (v : List String), heapGet (h ++ [v]) h.length = v
  | [], _ => rfl
  | _ :: t, v => heapGet_append_self t v

/-- A popped list is the remainder plus its last element. -/
theorem popLast_eq_some :
    ∀ (l rest : List String) (d : String),
      popLast l = some (rest, d) → l = rest ++ [d]
  | [], _, _, h => by simp [popLast] at h
  | [a], rest, d, h => by
    simp only [popLast, Option.some.injEq, Prod.mk.injEq] at h
    rw [← h.1, ← h.2]
    rfl
  | a :: b :: t, rest, d, h => by
    simp only [popLast] at h
    cases hp : popLast (b :: t) with
    | none => rw [hp] at h; exact Option.noConfusion h
    | some p =>
      obtain ⟨rest', d'⟩ := p
      rw [hp] at h
      simp only [Option.some.injEq, Prod.mk.injEq] at h
      rw [← h.1, ← h.2]
      have := popLast_eq_some (b :: t) rest' d' hp
      simp [this]

/-- Only the empty list fails to pop. -/
theorem popLast_eq_none :
    ∀ (l : List String), popLast l = none → l = []
  | [], _ => rfl
  | [a], h => by simp [popLast] at h
  | a :: b :: t, h => by
    simp only [popLast] at h
    cases hp : popLast (b :: t) with
    | none => exact absurd (popLast_eq_none _ hp) (by simp)
    | some p => rw [hp] at h; obtain ⟨r', d'⟩ := p; exact Option.noConfusion h

/-- Running the pop chain with enough fuel returns the decorators of the
target object in pop order (reversed) and never touches any other list
object, while the heap keeps its size. -/
theorem pop_chain_spec :
    ∀ (fuel : Nat) (h : PyHeap) (r : Nat),
      (heapGet h r).length ≤ fuel →
      (pop_chain fuel h r).2 = (heapGet h r).reverse ∧
      (∀ r', r' ≠ r → heapGet (pop_chain fuel h r).1 r' = heapGet h r') ∧
      (pop_chain fuel h r).1.length = h.length := by
  intro fuel
  induction fuel with
  | zero =>
    intro h r hle
    have hnil : heapGet h r = [] := List.length_eq_zero.1 (Nat.le_zero.1 hle)
    simp [pop_chain, hnil]
  | succ fuel ih =>
    intro h r hle
    cases hp : popLast (heapGet h r) with
    | none =>
      have hnil := popLast_eq_none _ hp
      simp only [pop_chain, hp]
      simp [hnil]
    | some p =>
      obtain ⟨rest, d⟩ := p
      have hsplit := popLast_eq_some _ _ _ hp
      have hlt : r < h.length :=
        heapGet_ne_nil_lt h r (by simp [hsplit])
      have hget : heapGet (heapSet h r rest) r = rest :=
        heapGet_heapSet_self h r rest hlt
      have hlen : rest.length ≤ fuel := by
        have : (heapGet h r).length = rest.length + 1 := by simp [hsplit]
        omega
      have hlen' : (heapGet (heapSet h r rest) r).length ≤ fuel := by
        rw [hget]
        exact hlen
      obtain ⟨ih1, ih2, ih3⟩ := ih (heapSet h r rest) r hlen'
      refine ⟨?_, ?_, ?_⟩
      · simp only [pop_chain, hp]
        rw [ih1, hget, hsplit]
        simp
      · intro r' hne
        simp only [pop_chain, hp]
        rw [ih2 r' hne, heapGet_heapSet_ne h r r' rest (fun he => hne he.symm)]
      · simp only [pop_chain, hp]
        rw [ih3, heapSet_length]

/-- The decoration step of one `_do_send`: the registered list object is
untouched, the chain invokes the registered decorators in pop (reverse)
order, and the heap grows by the one fresh copy. -/
theorem do_send_decoration_spec (h : PyHeap) (registered : Nat)
    (hlt : registered < h.length) :
    heapGet (do_send_decoration h registered).1 registered =
      heapGet h registered ∧
    (do_send_decoration h registered).2 = (heapGet h registered).reverse ∧
    (do_send_decoration h registered).1.length = h.length + 1 := by
  have hcopy : heapGet (h ++ [heapGet h registered]) h.length =
      heapGet h registered := heapGet_append_self h (heapGet h registered)
  have hold : heapGet (h ++ [heapGet h registered]) registered =
      heapGet h registered :=
    heapGet_append_left h registered (heapGet h registered) hlt
  obtain ⟨h1, h2, h3⟩ := pop_chain_spec
    (heapGet (h ++ [heapGet h registered]) h.length).length
    (h ++ [heapGet h registered]) h.length (Nat.le_refl _)
  have hne : registered ≠ h.length := Nat.ne_of_lt hlt
  refine ⟨?_, ?_, ?_⟩
  · simp only [do_send_decoration, get_decorators, heapAlloc,
      run_decorator_chain]
    rw [h2 registered hne, hold]
  · simp only [do_send_decoration, get_decorators, heapAlloc,
      run_decorator_chain]
    rw [h1, hcopy]
  · simp only [do_send_decoration, get_decorators, heapAlloc,
      run_decorator_chain]
    rw [h3]
    simp

/-- C10: `_get_decorators` hands each `_do_send` call a fresh copy of
the registered decorator list, so running the pop-driven decorator chain
leaves the registered list unchanged, the chain sees the full decorator
list in pop order, and a second message assembled afterwards again sees
the full chain. -/
theorem decorator_chain_uses_fresh_copy (h : PyHeap) (registered : Nat)
    (hlt : registered < h.length) :
    heapGet (do_send_decoration h registered).1 registered =
      heapGet h registered ∧
    (do_send_decoration h registered).2 = (heapGet h registered).reverse ∧
    (do_send_decoration (do_send_decoration h registered).1 registered).2 =
      (heapGet h registered).reverse := by
  obtain ⟨h1, h2, h3⟩ := do_send_decoration_spec h registered hlt
  refine ⟨h1, h2, ?_⟩
  have hlt2 : registered < (do_send_decoration h registered).1.length := by
    omega
  obtain ⟨_, h2', _⟩ :=
    do_send_decoration_spec (do_send_decoration h registered).1 registered
      hlt2
  rw [h2', h1]

/-- Witness for C10 on a concrete two-decorator heap. -/
theorem decorator_chain_uses_fresh_copy_witness :
    heapGet (do_send_decoration [["alpha", "beta"]] 0).1 0 =
      ["alpha", "beta"] ∧
    (do_send_decoration [["alpha", "beta"]] 0).2 = ["beta", "alpha"] ∧
    (do_send_decoration (do_send_decoration [["alpha", "beta"]] 0).1 0).2 =
      ["beta", "alpha"] :=
  decorator_chain_uses_fresh_copy [["alpha", "beta"]] 0 (by decide)

end AnnouncerMail
